import Mathlib

/-!
Shallow embedding of the `discussion_repl` tool of the memory-jogger
repository, and proofs about its command parser, discussion resolver,
archive-snapshot lookup, and REPL session loop.

Source files embedded:
- `extras/discussion_repl/discussion_repl/app.py` (Command, HNItem,
  `format_discussions`, `find_and_display_discussions`,
  `find_and_display_discussions_non_hn`, `main`'s iteration body and
  prompt loop);
- `extras/discussion_repl/discussion_repl/console.py`
  (`CommandPrompt.process_response`);
- `extras/discussion_repl/discussion_repl/wayback.py` (`get_snapshot`,
  `parse_url_from_snapshot`).

External effects (HTTP calls, the Reddit client, console input, the
`memory_jogger` subprocess) are modelled as explicit oracle arguments and
recorded effect lists; a raised `requests.RequestException` is modelled as
an `Except.error` carrying the exception's string form.
-/

/-- Python string helper: `s.replace(old, "")` where `old` is a single
character removes every occurrence of that character. -/
def removeChar (c : Char) (s : String) : String :=
  ⟨s.data.filter (fun d => d ≠ c)⟩

/-- Python string helper: `s.strip()` removes leading and trailing
whitespace (the commands and inputs of interest are ASCII, where Python's
notion of whitespace agrees with `Char.isWhitespace`). -/
def pyStrip (s : String) : String :=
  ⟨((s.data.dropWhile Char.isWhitespace).reverse.dropWhile Char.isWhitespace).reverse⟩

/-- Python string helper: `s.lower()` (ASCII lowering; command names and
the inputs of interest are ASCII). -/
def pyLower (s : String) : String :=
  ⟨s.data.map Char.toLower⟩

/-- Python string helper: `s.startswith(pre)`. -/
def pyStartswith (s : String) (pre : String) : Bool :=
  pre.data.isPrefixOf s.data

/-- Stringified `requests.RequestException` raised by a failed HTTP call
(`resp.raise_for_status()` or the request itself). -/
structure HttpError where
  msg : String
  deriving DecidableEq

/-- User command enum of `app.py` (`console.py` declares the identical
enum; both are modelled by this one type). -/
inductive Command
  | archive
  | delete
  | favorite
  | next
  | quit
  deriving DecidableEq

/-- Canonical lowercase textual form of a command (the enum member value). -/
def Command.value : Command → String
  | .archive => "archive"
  | .delete => "delete"
  | .favorite => "favorite"
  | .next => "next"
  | .quit => "quit"

/-- Fixed enumeration order of `Command` members, as iterated by
`for cmd in Command`. -/
def Command.enumeration : List Command :=
  [.archive, .delete, .favorite, .next, .quit]

/-- Embeds `Command.parse` of `app.py`: empty input is explicitly rejected,
otherwise the first enumerated command whose value starts with `text` is
returned, else `None`. -/
def Command.parse (text : String) : Option Command :=
  if text = "" then none
  else Command.enumeration.find? (fun cmd => pyStartswith cmd.value text)

/-- Embeds `CommandPrompt.validate_error_message` of `console.py`. -/
def CommandPrompt.validate_error_message : String :=
  "[prompt.invalid]Please enter a valid command"

/-- Embeds `CommandPrompt.process_response` of `console.py`: the response
is normalized with `value.strip().lower()`, then parsed; an unmatched
response raises `InvalidResponse` (modelled as `Except.error` carrying the
message). -/
def CommandPrompt.process_response (value : String) : Except String Command :=
  match Command.parse (pyLower (pyStrip value)) with
  | some cmd => .ok cmd
  | none => .error CommandPrompt.validate_error_message

/-- Naive `datetime.datetime` value (year 1–9999, as in CPython). -/
structure DateTime where
  year : Nat
  month : Nat
  day : Nat
  hour : Nat
  minute : Nat
  second : Nat
  microsecond : Nat
  deriving DecidableEq

/-- Decimal digit character for `n % 10`. -/
def digitChar (n : Nat) : Char :=
  Char.ofNat (48 + n % 10)

/-- Two-digit zero-padded decimal rendering (`%02d`). -/
def pad2 (n : Nat) : List Char :=
  [digitChar (n / 10), digitChar n]

/-- Four-digit zero-padded decimal rendering (`%04d`). -/
def pad4 (n : Nat) : List Char :=
  [digitChar (n / 1000), digitChar (n / 100), digitChar (n / 10), digitChar n]

/-- Six-digit zero-padded decimal rendering (`%06d`). -/
def pad6 (n : Nat) : List Char :=
  [digitChar (n / 100000), digitChar (n / 10000), digitChar (n / 1000),
   digitChar (n / 100), digitChar (n / 10), digitChar n]

/-- Embeds `datetime.isoformat()` for a naive datetime:
`YYYY-MM-DDTHH:MM:SS` with a `.ffffff` fractional part appended exactly
when the microsecond field is nonzero (CPython's default
`timespec="auto"`). -/
def DateTime.isoformat (t : DateTime) : String :=
  ⟨pad4 t.year ++ '-' :: pad2 t.month ++ '-' :: pad2 t.day ++
   'T' :: pad2 t.hour ++ ':' :: pad2 t.minute ++ ':' :: pad2 t.second ++
   (if t.microsecond = 0 then [] else '.' :: pad6 t.microsecond)⟩

/-- Embeds `datetime.datetime.fromtimestamp` for integer POSIX timestamps,
using the standard civil-from-days calendar algorithm. CPython interprets
the timestamp in the local timezone; this embedding fixes UTC (no claim
depends on the timezone, only on the value being a definite function of
the timestamp). Integer timestamps yield microsecond 0. -/
def DateTime.fromTimestamp (t : Int) : DateTime :=
  let s : Nat := (Int.emod t 86400).toNat
  let z : Int := Int.fdiv t 86400 + 719468
  let era : Int := Int.fdiv z 146097
  let doe : Nat := (z - era * 146097).toNat
  let yoe : Nat := (doe - doe / 1460 + doe / 36524 - doe / 146096) / 365
  let doy : Nat := doe - (365 * yoe + yoe / 4 - yoe / 100)
  let mp : Nat := (5 * doy + 2) / 153
  let d : Nat := doy - (153 * mp + 2) / 5 + 1
  let m : Nat := if mp < 10 then mp + 3 else mp - 9
  let y : Int := era * 400 + yoe + (if m ≤ 2 then 1 else 0)
  { year := y.toNat, month := m, day := d,
    hour := s / 3600, minute := s % 3600 / 60, second := s % 60,
    microsecond := 0 }

/-- JSON hit object of the HN Algolia search response, with the three
fields `HNItem.from_json` reads. -/
structure HNItemJson where
  objectID : String
  points : Int
  created_at_i : Int
  deriving DecidableEq

/-- HN Algolia search response body: `{"hits": [...]}`. -/
structure SearchResponse where
  hits : List HNItemJson
  deriving DecidableEq

/-- Embeds the `HNItem` dataclass of `app.py`. -/
structure HNItem where
  id : String
  points : Int
  created_at : DateTime
  deriving DecidableEq

/-- Embeds the `HNItem.discussion_url` property. -/
def HNItem.discussion_url (item : HNItem) : String :=
  "https://news.ycombinator.com/item?id=" ++ item.id

/-- Embeds `HNItem.__str__`: discussion URL, points with singular or
plural "point(s)", and the ISO-formatted creation time. -/
def HNItem.str (item : HNItem) : String :=
  let points := toString item.points ++ " point" ++ (if item.points ≠ 1 then "s" else "")
  item.discussion_url ++ " | " ++ points ++ " | " ++ item.created_at.isoformat

/-- Embeds `HNItem.from_json`. -/
def HNItem.from_json (json : HNItemJson) : HNItem :=
  { id := json.objectID, points := json.points,
    created_at := DateTime.fromTimestamp json.created_at_i }

/-- Python comparison `item.id == exclude_id` where `exclude_id` is
`Optional[str]`: a string is never equal to `None`. -/
def idEqualsExclude (id : String) (exclude_id : Option String) : Bool :=
  match exclude_id with
  | none => false
  | some e => id == e

/-- Sort relation of `format_discussions`: `a` may precede `b` when `a`
has at least as many points (descending by `points`). -/
def ptsGE (a b : HNItem) : Prop :=
  b.points ≤ a.points

instance : DecidableRel ptsGE :=
  fun a b => inferInstanceAs (Decidable (b.points ≤ a.points))

instance : IsTotal HNItem ptsGE :=
  ⟨fun a b => (le_total b.points a.points).elim Or.inl Or.inr⟩

instance : IsTrans HNItem ptsGE :=
  ⟨fun _ _ _ hab hbc => le_trans hbc hab⟩

/-- Embeds `format_discussions` of `app.py`: parse the hits, drop the
excluded id, sort by points descending, render each item.
Python's `sorted(items, key=lambda item: item.points, reverse=True)` is a
stable sort placing higher-point items first; `List.insertionSort ptsGE`
computes exactly that order (an earlier item is inserted in front of the
already-sorted later items precisely when its points are `≥` theirs, so
ties keep input order). -/
def format_discussions (data : SearchResponse) (exclude_id : Option String) : List String :=
  let items := data.hits.map HNItem.from_json
  let items := items.filter (fun item => !(idEqualsExclude item.id exclude_id))
  let items := List.insertionSort ptsGE items
  items.map HNItem.str

/-- Record of one `memory_jogger` subprocess invocation made by
`archive_item`, `delete_item` or `favorite_item`, keyed by the saved
item's id. -/
inductive StoreCall
  | archiveCall (id : Int)
  | deleteCall (id : Int)
  | favoriteCall (id : Int)
  deriving DecidableEq

/-- Outcome of one `input(...)` call at the prompt: a returned line, an
`EOFError`, or a `KeyboardInterrupt`. -/
inductive InputEvent
  | line (s : String)
  | eof
  | interrupt
  deriving DecidableEq

/-- How the inner prompt loop of `main` ends. -/
inductive PromptOutcome
  /-- A `break` out of the inner loop: the outer loop fetches a new item. -/
  | fetchNext
  /-- The bare `sys.exit()` call: `SystemExit` with code `None`,
  terminating the process with success status. -/
  | exitSuccess
  /-- An uncaught `KeyboardInterrupt` propagating out of `input(...)`
  (only `EOFError` is handled): abnormal, non-success termination. -/
  | uncaughtInterrupt
  /-- The supplied event list ran out while the loop was still prompting
  (the real loop would block for more input). -/
  | blocked
  deriving DecidableEq

/-- Observable result of running the inner prompt loop: how it ended,
which store commands it invoked (in order), and what it printed to
stdout. -/
structure PromptResult where
  outcome : PromptOutcome
  calls : List StoreCall
  output : List String
  deriving DecidableEq

/-- Embeds the inner `while True:` prompt loop of `main` (app.py) for the
item with Memory Jogger id `mjId`, driven by a list of input events.
An empty reply re-prompts silently; `ARCHIVE`/`DELETE` invoke the store
command then `break`; `FAVORITE` invokes the store command and falls
through to prompt again on the same item; `NEXT` breaks with no call;
`QUIT` (also reached on `EOFError`) calls `sys.exit()`; unmatched input
prints `unknown command: <reply>` and prompts again. -/
def promptLoop (mjId : Int) : List InputEvent → PromptResult
  | [] => ⟨.blocked, [], []⟩
  | .interrupt :: _ => ⟨.uncaughtInterrupt, [], []⟩
  | .eof :: _ => ⟨.exitSuccess, [], []⟩
  | .line reply :: rest =>
    if reply = "" then
      promptLoop mjId rest
    else
      match Command.parse reply with
      | some .archive => ⟨.fetchNext, [.archiveCall mjId], []⟩
      | some .delete => ⟨.fetchNext, [.deleteCall mjId], []⟩
      | some .favorite =>
        let r := promptLoop mjId rest
        ⟨r.outcome, .favoriteCall mjId :: r.calls, r.output⟩
      | some .next => ⟨.fetchNext, [], []⟩
      | some .quit => ⟨.exitSuccess, [], []⟩
      | none =>
        let r := promptLoop mjId rest
        ⟨r.outcome, r.calls, ("unknown command: " ++ reply) :: r.output⟩

/-- Embeds the `MJSavedItem` dataclass of `app.py` (one row of
`saved_items`). -/
structure MJSavedItem where
  id : Int
  title : String
  excerpt : String
  url : String
  time_added : String
  deriving DecidableEq

/-- Lines of the item summary printed at the top of each iteration of
`main`: title, blank line, excerpt plus blank line when the excerpt is
non-empty, url, and the added-timestamp line. -/
def itemSummary (item : MJSavedItem) : List String :=
  [item.title, ""] ++
  (if item.excerpt ≠ "" then [item.excerpt, ""] else []) ++
  [item.url, "added: " ++ item.time_added]

/-- Result of the enrichment phase of one `main` iteration (the
`try`/`except requests.RequestException` block). -/
structure EnrichResult where
  stdout : List String
  stderr : List String
  snapshotAttempted : Bool
  deriving DecidableEq

/-- Embeds lines 192–198 of `app.py`: run
`find_and_display_discussions`, then `wayback.get_snapshot`, catching any
`requests.RequestException` from either with a warning on stderr.
The two external steps are supplied as already-evaluated oracle results:
`disc` is the discussion step's outcome (`Except.error` carries the lines
it printed before raising together with the exception), `snap` the
snapshot step's outcome (it prints nothing).
The snapshot step is reached only when the discussion step succeeded,
matching the straight-line order inside the `try` block. -/
def displayAndEnrich (disc : Except (List String × HttpError) (List String))
    (snap : Except HttpError (Option String)) : EnrichResult :=
  match disc with
  | .error (partialOut, e) =>
    { stdout := partialOut,
      stderr := ["warning: fetching discussions failed: " ++ e.msg],
      snapshotAttempted := false }
  | .ok discLines =>
    match snap with
    | .error e =>
      { stdout := discLines,
        stderr := ["warning: fetching discussions failed: " ++ e.msg],
        snapshotAttempted := true }
    | .ok none =>
      { stdout := discLines, stderr := [], snapshotAttempted := true }
    | .ok (some url) =>
      { stdout := discLines ++ [url ++ " (wayback archive)"],
        stderr := [], snapshotAttempted := true }

/-- Observable result of one full iteration of `main`'s outer loop:
the printed item summary, the enrichment phase result, and the prompt
loop result. -/
structure IterationResult where
  summary : List String
  enrich : EnrichResult
  promptRes : PromptResult
  deriving DecidableEq

/-- Embeds the body of `main`'s outer `while True:` loop for one fetched
item: print the joined summary lines, run the enrichment `try` block,
then run the inner prompt loop on the user's input events. -/
def mainIteration (item : MJSavedItem)
    (disc : Except (List String × HttpError) (List String))
    (snap : Except HttpError (Option String))
    (events : List InputEvent) : IterationResult :=
  { summary := [String.intercalate "\n" (itemSummary item)],
    enrich := displayAndEnrich disc snap,
    promptRes := promptLoop item.id events }

/-- Query parameters sent to `archive.org/wayback/available`. -/
structure WaybackRequest where
  url : String
  timestamp : String
  deriving DecidableEq

/-- The `{"closest": {"url": ...}}` member of a non-empty
`archived_snapshots` object. -/
structure ClosestSnapshot where
  url : String
  deriving DecidableEq

/-- Wayback availability API response body:
`{"archived_snapshots": {}}` is modelled as `none` (a falsy empty dict),
a non-empty object as `some` of its `closest` member. -/
structure SnapshotResponse where
  archived_snapshots : Option ClosestSnapshot
  deriving DecidableEq

/-- Embeds `parse_url_from_snapshot` of `wayback.py`: the `closest.url`
field when `archived_snapshots` is non-empty (truthy), else `None`. -/
def parse_url_from_snapshot (data : SnapshotResponse) : Option String :=
  match data.archived_snapshots with
  | some closest => some closest.url
  | none => none

/-- Embeds `get_snapshot` of `wayback.py`. The timestamp parameter is
`timestamp.isoformat().replace("T", "").replace("-", "").replace(":", "")`.
The HTTP call is an oracle from the request parameters; the function
returns the request it sent alongside the parsed result. -/
def get_snapshot (http : WaybackRequest → Except HttpError SnapshotResponse)
    (url : String) (timestamp : DateTime) :
    WaybackRequest × Except HttpError (Option String) :=
  let ts_str := removeChar ':' (removeChar '-' (removeChar 'T' timestamp.isoformat))
  let req : WaybackRequest := ⟨url, ts_str⟩
  match http req with
  | .error e => (req, .error e)
  | .ok data => (req, .ok (parse_url_from_snapshot data))

/-- Query parameters of the HN Algolia search request built by
`find_and_display_discussions_non_hn`. -/
structure SearchParams where
  query : String
  numericFilters : String
  restrictSearchableAttributes : String
  deriving DecidableEq

/-- Embeds `find_and_display_discussions_non_hn` of `app.py`: one search
API call with the URL-restricted, comment-filtered parameters, then one
`print` of the newline-joined formatted discussions. -/
def find_and_display_discussions_non_hn
    (searchApi : SearchParams → Except HttpError SearchResponse)
    (url : String) (exclude_id : Option String) : Except HttpError (List String) :=
  let params : SearchParams :=
    { query := url, numericFilters := "num_comments>0",
      restrictSearchableAttributes := "url" }
  match searchApi params with
  | .error e => .error e
  | .ok resp => .ok [String.intercalate "\n" (format_discussions resp exclude_id)]

/-- Item-API JSON object of
`hacker-news.firebaseio.com/v0/item/<id>.json`; only the optional `url`
field is read (`data.get("url")`). -/
structure ItemResponse where
  urlField : Option String
  deriving DecidableEq

/-- Reddit submission object; only its `url` attribute is read. -/
structure Submission where
  url : String
  deriving DecidableEq

/-- Exceptions `find_and_display_discussions` can raise. -/
inductive ResolveError
  /-- A `requests.RequestException` from an HTTP call. -/
  | http (e : HttpError)
  /-- The `assert len(post_ids) == 1` failure. -/
  | assertionFailed
  /-- `parse_qs(...)["id"]` with no `id` key. -/
  | keyError
  /-- `path.split("/")[-3]` on a path with fewer than three segments. -/
  | indexError
  deriving DecidableEq

/-- Result of `urllib.parse.urlparse` on the saved item's URL, with the
query component already in `parse_qs` form (an association list from key
to its non-empty list of values); `urllib.parse` is Python stdlib and is
treated as an external, already-applied parser. -/
structure ParsedUrl where
  netloc : String
  path : String
  query : List (String × List String)
  deriving DecidableEq

/-- Dictionary access `parse_qs(query)["id"]`-style lookup: `none` models
a `KeyError`. -/
def qsGet (query : List (String × List String)) (key : String) : Option (List String) :=
  (query.find? (fun kv => kv.1 == key)).map (fun kv => kv.2)

/-- Embeds `find_and_display_discussions` of `app.py`. Dispatch on the
URL host: a `news.ycombinator.com` URL fetches the item by its single
`id` query parameter and, when the item carries an external `url`, prints
it and searches for it with the item id excluded; a `www.reddit.com` URL
resolves the submission (id taken from the third-from-last path segment)
and searches for its URL with no exclusion; any other URL is searched
directly. Returned `.ok` lines are the `print` calls made; `.error`
models a raised exception (lines printed before a raise are not tracked
here — `main`'s handler, the only caller that observes the raise, ignores
them). -/
def find_and_display_discussions
    (itemApi : String → Except HttpError ItemResponse)
    (searchApi : SearchParams → Except HttpError SearchResponse)
    (redditApi : String → Except HttpError Submission)
    (parsed_url : ParsedUrl) (url : String) : Except ResolveError (List String) :=
  if parsed_url.netloc = "news.ycombinator.com" then
    match qsGet parsed_url.query "id" with
    | none => .error .keyError
    | some post_ids =>
      match post_ids with
      | [post_id] =>
        match itemApi post_id with
        | .error e => .error (.http e)
        | .ok data =>
          match data.urlField with
          | some item_url =>
            match find_and_display_discussions_non_hn searchApi item_url (some post_id) with
            | .error e => .error (.http e)
            | .ok lines => .ok (item_url :: lines)
          | none => .ok []
      | _ => .error .assertionFailed
  else if parsed_url.netloc = "www.reddit.com" then
    let parts := parsed_url.path.splitOn "/"
    if h : parts.length < 3 then .error .indexError
    else
      let submission_id := parts.get ⟨parts.length - 3, by omega⟩
      match redditApi submission_id with
      | .error e => .error (.http e)
      | .ok submission =>
        match find_and_display_discussions_non_hn searchApi submission.url none with
        | .error e => .error (.http e)
        | .ok lines => .ok (submission.url :: lines)
  else
    match find_and_display_discussions_non_hn searchApi url none with
    | .error e => .error (.http e)
    | .ok lines => .ok lines

/-- A boolean list-level prefix gives the take characterization: the
shorter list equals the corresponding take of the longer one. -/
theorem take_of_isPrefixOf {l w : List Char} (h : l.isPrefixOf w = true) :
    l = w.take l.length ∧ l.length ≤ w.length := by
  induction l generalizing w with
  | nil => exact ⟨rfl, Nat.zero_le _⟩
  | cons a as ih =>
    cases w with
    | nil => simp [List.isPrefixOf] at h
    | cons b bs =>
      simp only [List.isPrefixOf, Bool.and_eq_true, beq_iff_eq] at h
      obtain ⟨rfl, h2⟩ := h
      obtain ⟨ih1, ih2⟩ := ih h2
      refine ⟨?_, by simpa using Nat.succ_le_succ ih2⟩
      rw [List.length_cons, List.take_succ_cons]
      exact congrArg (List.cons a) ih1

/-- Evaluated check: every take of every command value, when non-empty,
parses back to that command. -/
theorem parse_takes_all :
    (Command.enumeration.all fun cmd =>
      ((List.range (cmd.value.data.length + 1)).map (fun n => cmd.value.data.take n)).all
        fun l => l.isEmpty || decide (Command.parse ⟨l⟩ = some cmd)) = true := by
  decide

/-- C9: for every command and every non-empty proper prefix of its
canonical lowercase name, `parse` returns that command; `parse ""` and
`parse "unknown"` return `None`. -/
theorem command_parse_prefixes_spec :
    (∀ (cmd : Command) (p : String), p ≠ "" → p ≠ cmd.value →
      pyStartswith cmd.value p = true → Command.parse p = some cmd) ∧
    Command.parse "" = none ∧ Command.parse "unknown" = none := by
  refine ⟨?_, by decide, by decide⟩
  intro cmd p hne _hproper hpre
  obtain ⟨pd⟩ := p
  unfold pyStartswith at hpre
  obtain ⟨htake, hlen⟩ := take_of_isPrefixOf hpre
  have htake' : pd = cmd.value.data.take pd.length := htake
  have hlen' : pd.length ≤ cmd.value.data.length := hlen
  have hmem : pd ∈ (List.range (cmd.value.data.length + 1)).map
      (fun n => cmd.value.data.take n) :=
    List.mem_map.mpr ⟨pd.length, List.mem_range.mpr (by omega), htake'.symm⟩
  have hcmd : cmd ∈ Command.enumeration := by cases cmd <;> decide
  have h2 := List.all_eq_true.mp (List.all_eq_true.mp parse_takes_all cmd hcmd) pd hmem
  have hpd : pd ≠ [] := by
    intro hnil
    exact hne (by rw [hnil])
  have hempty : pd.isEmpty = false := by
    cases pd with
    | nil => exact absurd rfl hpd
    | cons c cs => rfl
  rw [hempty, Bool.false_or] at h2
  exact of_decide_eq_true h2

/-- C9 witness: the proper prefix "q" of "quit" parses to QUIT. -/
theorem command_parse_prefixes_spec_witness :
    ("q" ≠ "" ∧ "q" ≠ Command.quit.value ∧ pyStartswith Command.quit.value "q" = true) ∧
    Command.parse "q" = some Command.quit :=
  ⟨⟨by decide, by decide, by decide⟩,
   command_parse_prefixes_spec.1 Command.quit "q" (by decide) (by decide) (by decide)⟩

/-- C2 counterexample: the REPL's `Command.parse` (app.py) performs no
normalization, so the inputs " A " and "a", which differ only in case and
surrounding whitespace, do not parse to the same command. -/
theorem command_parse_no_normalization_cex :
    Command.parse "a" = some Command.archive ∧ Command.parse " A " = none := by
  decide

/-- C2 (amended): only `CommandPrompt.process_response` (console.py)
normalizes its input with `strip` and `lower` before matching, so inputs
equal after that normalization produce the same result there;
`Command.parse` itself matches the raw text. -/
theorem process_response_respects_normalization (s t : String)
    (h : pyLower (pyStrip s) = pyLower (pyStrip t)) :
    CommandPrompt.process_response s = CommandPrompt.process_response t := by
  unfold CommandPrompt.process_response
  rw [h]

/-- C2 witness: " A " and "a" normalize alike and both produce ARCHIVE
through `process_response`. -/
theorem process_response_respects_normalization_witness :
    pyLower (pyStrip " A ") = pyLower (pyStrip "a") ∧
    CommandPrompt.process_response " A " = CommandPrompt.process_response "a" ∧
    CommandPrompt.process_response " A " = .ok Command.archive :=
  ⟨by decide, process_response_respects_normalization " A " "a" (by decide), rfl⟩

/-- C3 counterexample: `Command.parse ""` is `None`, yet the session does
not print "unknown command: " for the empty line — it re-prompts
silently, with no output and no store call. -/
theorem empty_line_silent_cex :
    Command.parse "" = none ∧
    promptLoop 1 [InputEvent.line ""] = ⟨.blocked, [], []⟩ := by
  decide

/-- C3 (amended): for every non-empty line whose parse is `None`, the
session prints "unknown command: <the original text>", performs no store
action, and remains at the prompt; the empty line is instead re-prompted
silently. -/
theorem unknown_command_reprompt (mjId : Int) (s : String) (rest : List InputEvent)
    (hne : s ≠ "") (hparse : Command.parse s = none) :
    promptLoop mjId (.line s :: rest) =
      { promptLoop mjId rest with
        output := ("unknown command: " ++ s) :: (promptLoop mjId rest).output } := by
  simp only [promptLoop, if_neg hne, hparse]

/-- C3 witness: the line "unknown" is reported and the loop continues. -/
theorem unknown_command_reprompt_witness :
    ("unknown" ≠ "" ∧ Command.parse "unknown" = none) ∧
    promptLoop 1 [.line "unknown"] =
      { promptLoop 1 ([] : List InputEvent) with
        output := ("unknown command: " ++ "unknown") ::
          (promptLoop 1 ([] : List InputEvent)).output } :=
  ⟨⟨by decide, by decide⟩,
   unknown_command_reprompt 1 "unknown" [] (by decide) (by decide)⟩

/-- C5: a line parsing to FAVORITE performs exactly one favorite store
call keyed by the current item's id and returns to the prompt on the same
item; two such lines in a row perform exactly two favorite calls and the
session is still on that item. -/
theorem favorite_non_terminal (mjId : Int) (s : String) (rest : List InputEvent)
    (hne : s ≠ "") (hparse : Command.parse s = some Command.favorite) :
    promptLoop mjId (.line s :: rest) =
      { promptLoop mjId rest with
        calls := .favoriteCall mjId :: (promptLoop mjId rest).calls } ∧
    promptLoop mjId (.line s :: .line s :: rest) =
      { promptLoop mjId rest with
        calls := .favoriteCall mjId :: .favoriteCall mjId ::
          (promptLoop mjId rest).calls } := by
  have hstep : ∀ r : List InputEvent,
      promptLoop mjId (.line s :: r) =
        { promptLoop mjId r with
          calls := .favoriteCall mjId :: (promptLoop mjId r).calls } := by
    intro r
    simp only [promptLoop, if_neg hne, hparse]
  refine ⟨hstep rest, ?_⟩
  rw [hstep (.line s :: rest), hstep rest]

/-- C5 witness: entering "f" twice on item 1 records two favorite calls
and leaves the loop still prompting on item 1. -/
theorem favorite_non_terminal_witness :
    ("f" ≠ "" ∧ Command.parse "f" = some Command.favorite) ∧
    promptLoop 1 [.line "f", .line "f"] =
      { promptLoop 1 ([] : List InputEvent) with
        calls := .favoriteCall 1 :: .favoriteCall 1 ::
          (promptLoop 1 ([] : List InputEvent)).calls } :=
  ⟨⟨by decide, by decide⟩,
   (favorite_non_terminal 1 "f" [] (by decide) (by decide)).2⟩

/-- C6 counterexample: end-of-input terminates with success like QUIT,
but an interrupt is not caught and does not terminate with success. -/
theorem interrupt_not_quit_cex :
    promptLoop 1 [.eof] = ⟨.exitSuccess, [], []⟩ ∧
    promptLoop 1 [.interrupt] = ⟨.uncaughtInterrupt, [], []⟩ ∧
    PromptOutcome.uncaughtInterrupt ≠ PromptOutcome.exitSuccess := by
  decide

/-- C6 (amended): at the prompt, end-of-input is treated identically to
an explicit QUIT command and terminates the session with success status;
an interrupt is not caught and aborts the session abnormally instead. -/
theorem eof_is_quit_interrupt_aborts (mjId : Int) (rest : List InputEvent) :
    promptLoop mjId (.eof :: rest) = promptLoop mjId (.line "quit" :: rest) ∧
    promptLoop mjId (.eof :: rest) = ⟨.exitSuccess, [], []⟩ ∧
    promptLoop mjId (.interrupt :: rest) = ⟨.uncaughtInterrupt, [], []⟩ := by
  refine ⟨?_, rfl, rfl⟩
  have : Command.parse "quit" = some Command.quit := by decide
  simp only [promptLoop, this, if_neg (by decide : ¬ ("quit" = ""))]

deriving instance DecidableEq for Except

/-- Items of the search response kept after JSON parsing and exclusion
filtering — the intermediate list of `format_discussions` before
sorting. -/
def keptItems (data : SearchResponse) (exclude_id : Option String) : List HNItem :=
  (data.hits.map HNItem.from_json).filter
    (fun item => !(idEqualsExclude item.id exclude_id))

/-- C4: for every hit list and exclusion id, `format_discussions` renders
exactly the non-excluded items, sorted by points descending with the sort
stable (equal-point items keep their input order); in particular a
score-10 item precedes a score-1 item whichever way the two arrive. -/
theorem format_discussions_sorted_stable (data : SearchResponse) (exclude_id : Option String) :
    format_discussions data exclude_id =
      (List.insertionSort ptsGE (keptItems data exclude_id)).map HNItem.str ∧
    List.Sorted ptsGE (List.insertionSort ptsGE (keptItems data exclude_id)) ∧
    List.Perm (List.insertionSort ptsGE (keptItems data exclude_id))
      (keptItems data exclude_id) ∧
    (∀ a b : HNItem, a.points = b.points →
      List.Sublist [a, b] (keptItems data exclude_id) →
      List.Sublist [a, b] (List.insertionSort ptsGE (keptItems data exclude_id))) ∧
    (∀ a b : HNItem, a.points = 10 → b.points = 1 →
      List.insertionSort ptsGE [a, b] = [a, b] ∧
      List.insertionSort ptsGE [b, a] = [a, b]) := by
  refine ⟨rfl, List.sorted_insertionSort ptsGE _, List.perm_insertionSort ptsGE _, ?_, ?_⟩
  · intro a b hpts hsub
    exact List.pair_sublist_insertionSort (le_of_eq hpts.symm) hsub
  · intro a b ha hb
    constructor <;>
      simp [List.insertionSort, List.orderedInsert, ptsGE, ha, hb]

/-- C4 witness: two concrete items with scores 10 and 1 arriving in
ascending order are reordered with the score-10 item first. -/
theorem format_discussions_sorted_stable_witness :
    ((⟨"a", 10, DateTime.fromTimestamp 0⟩ : HNItem).points = 10 ∧
     (⟨"b", 1, DateTime.fromTimestamp 0⟩ : HNItem).points = 1) ∧
    List.insertionSort ptsGE
        [⟨"b", 1, DateTime.fromTimestamp 0⟩, ⟨"a", 10, DateTime.fromTimestamp 0⟩] =
      [⟨"a", 10, DateTime.fromTimestamp 0⟩, ⟨"b", 1, DateTime.fromTimestamp 0⟩] :=
  ⟨⟨rfl, rfl⟩,
   ((format_discussions_sorted_stable ⟨[]⟩ none).2.2.2.2
     ⟨"a", 10, DateTime.fromTimestamp 0⟩ ⟨"b", 1, DateTime.fromTimestamp 0⟩ rfl rfl).2⟩

/-- C10: with no exclusion id the filter keeps every hit (a string id is
never equal to `None`), so the output has exactly one formatted line per
input hit, merely reordered. -/
theorem format_discussions_no_exclusion (data : SearchResponse) :
    keptItems data none = data.hits.map HNItem.from_json ∧
    format_discussions data none =
      (List.insertionSort ptsGE (data.hits.map HNItem.from_json)).map HNItem.str ∧
    (format_discussions data none).length = data.hits.length ∧
    List.Perm (format_discussions data none)
      ((data.hits.map HNItem.from_json).map HNItem.str) := by
  have hkept : keptItems data none = data.hits.map HNItem.from_json := by
    unfold keptItems
    refine List.filter_eq_self.mpr ?_
    intro a _
    rfl
  have heq : format_discussions data none =
      (List.insertionSort ptsGE (data.hits.map HNItem.from_json)).map HNItem.str := by
    rw [show format_discussions data none =
      (List.insertionSort ptsGE (keptItems data none)).map HNItem.str from rfl, hkept]
  refine ⟨hkept, heq, ?_, ?_⟩
  · rw [heq]
    rw [List.length_map, List.length_insertionSort, List.length_map]
  · rw [heq]
    exact (List.perm_insertionSort ptsGE _).map HNItem.str

/-- Digit characters produced by the padding helpers are decimal digits. -/
theorem digitChar_isDigit (n : Nat) : (digitChar n).isDigit = true := by
  have h : n % 10 < 10 := Nat.mod_lt _ (by decide)
  have hall : ∀ k, k < 10 → (Char.ofNat (48 + k)).isDigit = true := by decide
  exact hall _ h

/-- Members of `pad2` are digits. -/
theorem isDigit_of_mem_pad2 {c : Char} {n : Nat} (h : c ∈ pad2 n) : c.isDigit = true := by
  simp only [pad2, List.mem_cons, List.not_mem_nil, or_false] at h
  rcases h with rfl | rfl <;> exact digitChar_isDigit _

/-- Members of `pad4` are digits. -/
theorem isDigit_of_mem_pad4 {c : Char} {n : Nat} (h : c ∈ pad4 n) : c.isDigit = true := by
  simp only [pad4, List.mem_cons, List.not_mem_nil, or_false] at h
  rcases h with rfl | rfl | rfl | rfl <;> exact digitChar_isDigit _

/-- Characters of a microsecond-free `isoformat` are digits or one of the
three separators `T`, `-`, `:`. -/
theorem isoformat_chars {t : DateTime} (h : t.microsecond = 0) {c : Char}
    (hc : c ∈ t.isoformat.data) :
    c.isDigit = true ∨ c = 'T' ∨ c = '-' ∨ c = ':' := by
  unfold DateTime.isoformat at hc
  rw [h] at hc
  simp only [if_pos rfl, List.append_nil, List.mem_append, List.mem_cons] at hc
  have hsplit : (c ∈ pad4 t.year ∨ c ∈ pad2 t.month ∨ c ∈ pad2 t.day ∨
      c ∈ pad2 t.hour ∨ c ∈ pad2 t.minute ∨ c ∈ pad2 t.second) ∨
      (c = 'T' ∨ c = '-' ∨ c = ':') := by tauto
  rcases hsplit with (h4 | h2 | h2 | h2 | h2 | h2) | hsep
  · exact Or.inl (isDigit_of_mem_pad4 h4)
  · exact Or.inl (isDigit_of_mem_pad2 h2)
  · exact Or.inl (isDigit_of_mem_pad2 h2)
  · exact Or.inl (isDigit_of_mem_pad2 h2)
  · exact Or.inl (isDigit_of_mem_pad2 h2)
  · exact Or.inl (isDigit_of_mem_pad2 h2)
  · exact Or.inr hsep

/-- Stripping the three separator characters from a microsecond-free
`isoformat` leaves only decimal digits. -/
theorem compact_timestamp_digits {t : DateTime} (h : t.microsecond = 0) :
    ((removeChar ':' (removeChar '-' (removeChar 'T' t.isoformat))).data.all
      Char.isDigit) = true := by
  refine List.all_eq_true.mpr ?_
  intro c hc
  simp only [removeChar, List.mem_filter, decide_eq_true_eq] at hc
  obtain ⟨⟨⟨hmem, hT⟩, hdash⟩, hcolon⟩ := hc
  rcases isoformat_chars h hmem with hd | rfl | rfl | rfl
  · exact hd
  · exact absurd rfl hT
  · exact absurd rfl hdash
  · exact absurd rfl hcolon

/-- C7 counterexample: an `at_time` with nonzero microseconds keeps the
fractional-second dot, so the timestamp parameter is not a digits-only
string. -/
theorem wayback_timestamp_not_digits_cex :
    (((get_snapshot (fun _ => .ok ⟨none⟩) "http://example.com"
        ⟨2023, 1, 2, 3, 4, 5, 500000⟩).1.timestamp).data.all Char.isDigit) = false := by
  decide

/-- C7 (amended): `get_snapshot` sends the archive API the url together
with a timestamp parameter equal to `at_time.isoformat()` with the
separators `T`, `-` and `:` removed; whenever `at_time` carries no
fractional-second part this timestamp is a digits-only date+time
string. -/
theorem wayback_request_format (http : WaybackRequest → Except HttpError SnapshotResponse)
    (url : String) (t : DateTime) :
    (get_snapshot http url t).1 =
      ⟨url, removeChar ':' (removeChar '-' (removeChar 'T' t.isoformat))⟩ ∧
    (t.microsecond = 0 →
      (((get_snapshot http url t).1.timestamp).data.all Char.isDigit) = true) := by
  have h1 : (get_snapshot http url t).1 =
      ⟨url, removeChar ':' (removeChar '-' (removeChar 'T' t.isoformat))⟩ := by
    simp only [get_snapshot]
    split <;> rfl
  refine ⟨h1, ?_⟩
  intro hm
  rw [h1]
  exact compact_timestamp_digits hm

/-- C7 witness: the epoch datetime has no microseconds and its compact
timestamp is digits-only. -/
theorem wayback_request_format_witness :
    ((⟨1970, 1, 1, 0, 0, 0, 0⟩ : DateTime).microsecond = 0) ∧
    (((get_snapshot (fun _ => .ok ⟨none⟩) "http://example.com"
        ⟨1970, 1, 1, 0, 0, 0, 0⟩).1.timestamp).data.all Char.isDigit) = true :=
  ⟨rfl, (wayback_request_format (fun _ => .ok ⟨none⟩) "http://example.com"
    ⟨1970, 1, 1, 0, 0, 0, 0⟩).2 rfl⟩

/-- A list-level prefix of a list is still a prefix after appending. -/
theorem isPrefixOf_append {l w : List Char} (r : List Char)
    (h : l.isPrefixOf w = true) : l.isPrefixOf (w ++ r) = true := by
  induction l generalizing w with
  | nil => simp [List.isPrefixOf]
  | cons a as ih =>
    cases w with
    | nil => simp [List.isPrefixOf] at h
    | cons b bs =>
      simp only [List.isPrefixOf, Bool.and_eq_true] at h
      simp only [List.cons_append, List.isPrefixOf, Bool.and_eq_true]
      exact ⟨h.1, ih h.2⟩

/-- Warning lines built from the fixed message prefix and an exception
string start with "warning:". -/
theorem warning_line_prefixed (m : String) :
    pyStartswith ("warning: fetching discussions failed: " ++ m) "warning:" = true := by
  obtain ⟨md⟩ := m
  exact isPrefixOf_append md (by decide)

/-- C8: during display-and-enrich, every HTTP failure from discussion
resolution or snapshot lookup is caught, surfaced only as a stderr line
prefixed "warning:", and the session still proceeds to the prompt; the
snapshot lookup is reached exactly when discussion resolution succeeded,
and on a discussion failure the snapshot oracle is never consulted. -/
theorem enrich_catches_http (item : MJSavedItem)
    (disc : Except (List String × HttpError) (List String))
    (snap : Except HttpError (Option String)) (events : List InputEvent) :
    (∀ s ∈ (mainIteration item disc snap events).enrich.stderr,
      pyStartswith s "warning:" = true) ∧
    ((mainIteration item disc snap events).enrich.snapshotAttempted = true ↔
      ∃ lines, disc = .ok lines) ∧
    (mainIteration item disc snap events).promptRes = promptLoop item.id events ∧
    (∀ po e snap', disc = .error (po, e) →
      mainIteration item disc snap events = mainIteration item disc snap' events) := by
  cases disc with
  | error pe =>
    obtain ⟨po, e⟩ := pe
    refine ⟨?_, ?_, rfl, ?_⟩
    · intro s hs
      simp only [mainIteration, displayAndEnrich, List.mem_singleton] at hs
      subst hs
      exact warning_line_prefixed e.msg
    · simp [mainIteration, displayAndEnrich]
    · intro po' e' snap' _
      rfl
  | ok lines =>
    refine ⟨?_, ?_, rfl, ?_⟩
    · intro s hs
      cases snap with
      | error e =>
        simp only [mainIteration, displayAndEnrich, List.mem_singleton] at hs
        subst hs
        exact warning_line_prefixed e.msg
      | ok v =>
        cases v <;> simp [mainIteration, displayAndEnrich] at hs
    · cases snap with
      | error e => simp [mainIteration, displayAndEnrich]
      | ok v => cases v <;> simp [mainIteration, displayAndEnrich]
    · intro po e snap' hcontra
      exact absurd hcontra (by simp)

/-- C8 witness: a failing discussion step produces exactly one stderr
line, and it starts with "warning:". -/
theorem enrich_catches_http_witness :
    pyStartswith ("warning: fetching discussions failed: " ++ "boom") "warning:" = true :=
  (enrich_catches_http ⟨1, "t", "", "http://e.com", "2020-01-01"⟩
      (.error ([], ⟨"boom"⟩)) (.ok none) []).1
    ("warning: fetching discussions failed: " ++ "boom") (by decide)

/-- C1: for a native discussion-site URL (host `news.ycombinator.com`)
whose query carries a single id value, the resolver fetches that item
from the item API; when the item has a `url` field the resolver prints it
and then the general-search results for that URL with the original item
id excluded, and when the item has no `url` field no general search is
performed (the result does not depend on the search oracle) and the call
returns normally without error. -/
theorem resolve_hn_native (itemApi : String → Except HttpError ItemResponse)
    (searchApi : SearchParams → Except HttpError SearchResponse)
    (redditApi : String → Except HttpError Submission)
    (pu : ParsedUrl) (url : String) (post_id : String) (item : ItemResponse)
    (hnet : pu.netloc = "news.ycombinator.com")
    (hid : qsGet pu.query "id" = some [post_id])
    (hitem : itemApi post_id = .ok item) :
    (∀ item_url, item.urlField = some item_url →
      find_and_display_discussions itemApi searchApi redditApi pu url =
        (match searchApi ⟨item_url, "num_comments>0", "url"⟩ with
         | .error e => .error (.http e)
         | .ok resp => .ok [item_url,
             String.intercalate "\n" (format_discussions resp (some post_id))])) ∧
    (item.urlField = none →
      ∀ searchApi' : SearchParams → Except HttpError SearchResponse,
        find_and_display_discussions itemApi searchApi' redditApi pu url = .ok []) := by
  constructor
  · intro item_url hurl
    simp only [find_and_display_discussions, find_and_display_discussions_non_hn,
      if_pos hnet, hid, hitem, hurl]
    rcases hs : searchApi ⟨item_url, "num_comments>0", "url"⟩ with e | resp <;> simp [hs]
  · intro hnone searchApi'
    simp only [find_and_display_discussions, if_pos hnet, hid, hitem, hnone]

/-- C1 witness: the end-to-end scenario with item id 123 whose item URL
is `http://example.com/a`; the output prints that URL followed by the
search results for it with id 123 excluded. -/
theorem resolve_hn_native_witness :
    find_and_display_discussions
        (fun _ => .ok ⟨some "http://example.com/a"⟩)
        (fun _ => .ok ⟨[⟨"123", 50, 0⟩, ⟨"9", 2, 0⟩]⟩)
        (fun _ => .error ⟨"unused"⟩)
        ⟨"news.ycombinator.com", "/item", [("id", ["123"])]⟩
        "https://news.ycombinator.com/item?id=123" =
      .ok ["http://example.com/a",
           "https://news.ycombinator.com/item?id=9 | 2 points | 1970-01-01T00:00:00"] := by
  have h := (resolve_hn_native
      (fun _ => .ok ⟨some "http://example.com/a"⟩)
      (fun _ => .ok ⟨[⟨"123", 50, 0⟩, ⟨"9", 2, 0⟩]⟩)
      (fun _ => .error ⟨"unused"⟩)
      ⟨"news.ycombinator.com", "/item", [("id", ["123"])]⟩
      "https://news.ycombinator.com/item?id=123" "123"
      ⟨some "http://example.com/a"⟩ rfl (by decide) rfl).1
    "http://example.com/a" rfl
  exact h.trans (by decide)
